import Mathlib

/-!
Verification of the rustboy audio worklet processors.

Shallow embedding of the repository's audio generators:

* `src/unnamed/part_000` — `WhiteNoiseProcessor`, packed-integer shift register
  (embedded here with the `noise0` prefix);
* `src/unnamed/part_001` — `WhiteNoiseProcessor`, boolean-array shift register
  (embedded here with the `noise1` prefix);
* `src/static/waveform-processor.js` — `WaveformProcessor` (embedded with the
  `wave` prefix, plus `getSample` which keeps its source name);
* the `PulseGenerator` (`pwm-processor.js`) is loaded by the app
  (`audioContext.audioWorklet.addModule("pwm-processor.js")`) but its source is
  not among the repository files, so it is modelled from the design document.

JS numbers are modelled as rationals; JS `Math.floor` is `Int.floor`.  The
per-frame loops mutate instance state; the embedding passes state explicitly.
A `process` call receives the channels of `outputs[0]` as a list of frame
buffers and returns the updated state together with the written buffers.
-/

/-- Iterate a function `n` times (fuel-style, used to describe per-tick and
per-frame state sequences). -/
def iterN {α : Type} (f : α → α) : α → ℕ → α
  | s, 0 => s
  | s, n + 1 => iterN f (f s) n

/-- The shared frame-counter recurrence of all generators: before emitting a
frame, a counter `c` that exceeds the threshold `t` is reset to `0` (firing the
boundary event), and the counter is incremented after the frame.  `counterSeq t
n` is the counter observed at the start of frame `n`, starting from `0`. -/
def counterSeq (t : ℕ) : ℕ → ℕ
  | 0 => 0
  | n + 1 =>
    let c := counterSeq t n
    (if c > t then 0 else c) + 1

/-- One entry of a `parameterDescriptors` table. -/
structure ParamDescriptor where
  name : String
  defaultValue : ℚ
  minValue : ℚ
  maxValue : ℚ
  automationRate : String
deriving DecidableEq

/-! ## part_000: WhiteNoiseProcessor with a packed-integer register -/

/-- Block-level parameter snapshot of either noise processor
(`trigger`, `gain`, `frequency`, `width`, all k-rate). -/
structure NoiseParams where
  trigger : ℚ
  gain : ℚ
  frequency : ℚ
  width : ℚ
deriving DecidableEq

/-- Instance state of the part_000 processor: `this.lfsr = 0`,
`this.currentSample = 0`. -/
structure Noise0State where
  lfsr : ℕ
  currentSample : ℕ
deriving DecidableEq

/-- part_000 constructor state. -/
def noise0InitState : Noise0State := ⟨0, 0⟩

/-- Declared `parameterDescriptors` of part_000. -/
def noise0ParameterDescriptors : List ParamDescriptor :=
  [⟨"trigger", 0, 0, 1, "k-rate"⟩,
   ⟨"gain", 1, 0, 1, "k-rate"⟩,
   ⟨"frequency", 200, 1, 44100, "k-rate"⟩,
   ⟨"width", 1, 0, 1, "k-rate"⟩]

/-- part_000 `doTick(short)`.  JS `>>`, `&`, `|`, `~` act on 32-bit integers;
the register value always stays below `2 ^ 16`, so `Nat` bit operations agree
with the JS ones, with `~mask` rendered as a 32-bit complement.
`newBitValue << 15` coerces the boolean to `0`/`1` before shifting. -/
def noise0DoTick (lfsr : ℕ) (short : Bool) : ℕ :=
  let bit0 : Bool := lfsr &&& 0x1 == 1
  let bit1 : Bool := (lfsr >>> 1) &&& 0x1 == 1
  let newBitValue : Bool := !(bit0 != bit1)
  let mask : ℕ :=
    ((if newBitValue then 1 else 0) <<< 15) |||
      (if short then (if newBitValue then 1 else 0) <<< 7 else 0)
  let lfsr1 := lfsr >>> 1
  (lfsr1 &&& (mask ^^^ 0xFFFFFFFF)) ||| mask

/-- part_000 `const short = parameters.width[0] < 0.5`. -/
def noise0ShortFlag (width : ℚ) : Bool := width < 1 / 2

/-- Source line `samplesPerTick = Math.floor(sampleRate / parameters.frequency[0])`. -/
def samplesPerTick (sampleRate frequency : ℚ) : ℤ := ⌊sampleRate / frequency⌋

/-- Body of the part_000 per-frame loop, with the block-level constants
passed in (`samplesPerTick` and the short flag are hoisted out of the loop by
the source; `parameters.gain[0]` is read per frame but, being k-rate, is the
same block constant): possibly reset the counter and tick, emit
`((lfsr % 2) === 1 ? -1 : 1) * gain`, increment the counter. -/
def noise0Frame (spt : ℤ) (short : Bool) (gain : ℚ) (st : Noise0State) :
    Noise0State × ℚ :=
  let st1 :=
    if (st.currentSample : ℤ) > spt then
      { lfsr := noise0DoTick st.lfsr short, currentSample := 0 }
    else st
  let value : ℚ := if st1.lfsr % 2 = 1 then -1 else 1
  ({ st1 with currentSample := st1.currentSample + 1 }, value * gain)

/-- part_000 inner loop over one channel's frames. -/
def noise0RenderChannel (spt : ℤ) (short : Bool) (gain : ℚ) :
    Noise0State → List ℚ → Noise0State × List ℚ
  | st, [] => (st, [])
  | st, _ :: rest =>
    let fr := noise0Frame spt short gain st
    let next := noise0RenderChannel spt short gain fr.1 rest
    (next.1, fr.2 :: next.2)

/-- part_000 `output.forEach((channel) => ...)`: the channels of `outputs[0]`
are rendered in order, threading the instance state. -/
def noise0RenderChannels (spt : ℤ) (short : Bool) (gain : ℚ) :
    Noise0State → List (List ℚ) → Noise0State × List (List ℚ)
  | st, [] => (st, [])
  | st, ch :: chs =>
    let c := noise0RenderChannel spt short gain st ch
    let rest := noise0RenderChannels spt short gain c.1 chs
    (rest.1, c.2 :: rest.2)

/-- part_000 `process`: when `parameters.trigger[0] > 0.5` compute the block
constants and render every channel, otherwise leave both state and buffers
untouched. -/
def noise0Process (sampleRate : ℚ) (p : NoiseParams) (st : Noise0State)
    (output : List (List ℚ)) : Noise0State × List (List ℚ) :=
  if p.trigger > 1 / 2 then
    noise0RenderChannels (samplesPerTick sampleRate p.frequency)
      (noise0ShortFlag p.width) p.gain st output
  else (st, output)

/-- Register state of part_000 after `n` ticks from the all-zero register. -/
def noise0Seq (short : Bool) (n : ℕ) : ℕ :=
  iterN (fun l => noise0DoTick l short) 0 n

/-- Output bit (bit 0) of part_000 after `n` ticks. -/
def noise0Out (short : Bool) (n : ℕ) : ℕ := noise0Seq short n % 2

/-- part_000 instance state at the start of frame `n` (enabled throughout). -/
def noise0FrameSeq (spt : ℤ) (short : Bool) (gain : ℚ) (n : ℕ) : Noise0State :=
  iterN (fun st => (noise0Frame spt short gain st).1) noise0InitState n

/-- Sample written by part_000 during frame `n`. -/
def noise0EmitAt (spt : ℤ) (short : Bool) (gain : ℚ) (n : ℕ) : ℚ :=
  (noise0Frame spt short gain (noise0FrameSeq spt short gain n)).2

/-- Whether part_000's tick fires during frame `n`. -/
def noise0TickFired (spt : ℤ) (short : Bool) (gain : ℚ) (n : ℕ) : Bool :=
  ((noise0FrameSeq spt short gain n).currentSample : ℤ) > spt

/-! ## part_001: WhiteNoiseProcessor with a boolean-array register -/

/-- Instance state of the part_001 processor. -/
structure Noise1State where
  lfsr : List Bool
  currentSample : ℕ
deriving DecidableEq

/-- part_001 constructor register `[...Array(15).fill(false)]`. -/
def noise1InitLfsr : List Bool := List.replicate 15 false

/-- part_001 constructor state. -/
def noise1InitState : Noise1State := ⟨noise1InitLfsr, 0⟩

/-- Declared `parameterDescriptors` of part_001. -/
def noise1ParameterDescriptors : List ParamDescriptor :=
  [⟨"trigger", 0, 0, 1, "k-rate"⟩,
   ⟨"gain", 0, 0, 1, "k-rate"⟩,
   ⟨"frequency", 200, 1, 44100, "k-rate"⟩,
   ⟨"width", 0, 0, 1, "k-rate"⟩]

/-- part_001 `doTick(short)`: compare the two lowest entries, `shift()` the
array, `push` the new bit at the back (index 14), and in short mode also
overwrite index 6. -/
def noise1DoTick (a : List Bool) (short : Bool) : List Bool :=
  let newBitValue : Bool := a.getD 0 false == a.getD 1 false
  let a1 := a.tail ++ [newBitValue]
  if short then a1.set 6 newBitValue else a1

/-- part_001 `const short = parameters.width[0] > 0.5`. -/
def noise1ShortFlag (width : ℚ) : Bool := width > 1 / 2

/-- Body of the part_001 per-frame loop, block constants passed in. -/
def noise1Frame (spt : ℤ) (short : Bool) (gain : ℚ) (st : Noise1State) :
    Noise1State × ℚ :=
  let st1 :=
    if (st.currentSample : ℤ) > spt then
      { lfsr := noise1DoTick st.lfsr short, currentSample := 0 }
    else st
  let value : ℚ := if st1.lfsr.getD 0 false then -1 else 1
  ({ st1 with currentSample := st1.currentSample + 1 }, value * gain)

/-- part_001 inner loop over one channel's frames. -/
def noise1RenderChannel (spt : ℤ) (short : Bool) (gain : ℚ) :
    Noise1State → List ℚ → Noise1State × List ℚ
  | st, [] => (st, [])
  | st, _ :: rest =>
    let fr := noise1Frame spt short gain st
    let next := noise1RenderChannel spt short gain fr.1 rest
    (next.1, fr.2 :: next.2)

/-- part_001 loop over the channels of `outputs[0]`. -/
def noise1RenderChannels (spt : ℤ) (short : Bool) (gain : ℚ) :
    Noise1State → List (List ℚ) → Noise1State × List (List ℚ)
  | st, [] => (st, [])
  | st, ch :: chs =>
    let c := noise1RenderChannel spt short gain st ch
    let rest := noise1RenderChannels spt short gain c.1 chs
    (rest.1, c.2 :: rest.2)

/-- part_001 `process`: unlike part_000 it has an `else` branch that resets
the register to all-zero on every disabled block. -/
def noise1Process (sampleRate : ℚ) (p : NoiseParams) (st : Noise1State)
    (output : List (List ℚ)) : Noise1State × List (List ℚ) :=
  if p.trigger > 1 / 2 then
    noise1RenderChannels (samplesPerTick sampleRate p.frequency)
      (noise1ShortFlag p.width) p.gain st output
  else ({ st with lfsr := List.replicate 15 false }, output)

/-- Register state of part_001 after `n` ticks from the all-zero register. -/
def noise1Seq (short : Bool) (n : ℕ) : List Bool :=
  iterN (fun a => noise1DoTick a short) noise1InitLfsr n

/-- Output bit (entry 0) of part_001 after `n` ticks. -/
def noise1Out (short : Bool) (n : ℕ) : Bool := (noise1Seq short n).getD 0 false

/-- part_001 instance state at the start of frame `n` (enabled throughout). -/
def noise1FrameSeq (spt : ℤ) (short : Bool) (gain : ℚ) (n : ℕ) : Noise1State :=
  iterN (fun st => (noise1Frame spt short gain st).1) noise1InitState n

/-- Sample written by part_001 during frame `n`. -/
def noise1EmitAt (spt : ℤ) (short : Bool) (gain : ℚ) (n : ℕ) : ℚ :=
  (noise1Frame spt short gain (noise1FrameSeq spt short gain n)).2

/-! ## waveform-processor.js: WaveformProcessor -/

/-- Block-level parameter snapshot of the waveform processor: `trigger`,
`gain`, `frequency`, and the packed words `data0` … `data7`, listed in order.
The words are the values of `Math.floor(parameters[`data i`][0])` for packed
32-bit payloads, so they are modelled as naturals and reduced mod `2 ^ 32`
(JS `ToInt32`) where the code applies bitwise operators. -/
structure WaveParams where
  trigger : ℚ
  gain : ℚ
  frequency : ℚ
  dataWords : List ℕ
deriving DecidableEq

/-- Instance state of the waveform processor: the `this.data` array assigned
by `port.onmessage`, and the two counters. -/
structure WaveState where
  data : List ℚ
  currentSample : ℕ
  currentWaveformSample : ℕ
deriving DecidableEq

/-- Waveform constructor state:
`this.data = [...Array(16).fill(-1), ...Array(16).fill(1)]`, both counters 0. -/
def waveInitState : WaveState :=
  ⟨List.replicate 16 (-1) ++ List.replicate 16 1, 0, 0⟩

/-- Message handler: `port.onmessage` assigns `event.data` to `this.data`. -/
def waveOnMessage (st : WaveState) (payload : List ℚ) : WaveState :=
  { st with data := payload }

/-- Method `WaveformProcessor.getSample(parameters, index)`: select the word
`data(floor(index/4))`, the byte `floor((index mod 4)/2)`, the high nibble for
even `index` and the low nibble for odd `index`, and map the nibble to the
amplitude `1 - 2 * (nibble / 15)`. -/
def getSample (p : WaveParams) (index : ℕ) : ℚ :=
  let parameterOffset := index / 4
  let valueOffset := index % 4 / 2
  let nibbleShift : ℕ := if index % 2 = 0 then 4 else 0
  let value0 := p.dataWords.getD parameterOffset 0 % 2 ^ 32
  let value1 := value0 >>> (valueOffset * 8) &&& 0xFF
  let value2 := value1 >>> nibbleShift &&& 0xF
  1 - 2 * ((value2 : ℚ) / 15)

/-- Source line `samplesPerWavelength = Math.floor(sampleRate / parameters.frequency[0])`. -/
def samplesPerWavelength (sampleRate frequency : ℚ) : ℤ := ⌊sampleRate / frequency⌋

/-- Source line `samplesPerWaveformSample = Math.floor(samplesPerWavelength / 32)`. -/
def samplesPerWaveformSample (sampleRate frequency : ℚ) : ℤ :=
  ⌊((samplesPerWavelength sampleRate frequency : ℤ) : ℚ) / 32⌋

/-- Body of the waveform per-frame loop, with the block constant
`samplesPerWaveformSample` (hoisted out of the loop by the source) passed in:
possibly reset `currentSample` and advance `currentWaveformSample` mod 32,
emit `getSample(...) * gain`, increment `currentSample`. -/
def waveFrame (spws : ℤ) (p : WaveParams) (st : WaveState) :
    WaveState × ℚ :=
  let st1 :=
    if (st.currentSample : ℤ) > spws then
      { st with currentSample := 0,
                currentWaveformSample := (st.currentWaveformSample + 1) % 32 }
    else st
  let value := getSample p st1.currentWaveformSample
  ({ st1 with currentSample := st1.currentSample + 1 }, value * p.gain)

/-- Waveform inner loop over one channel's frames. -/
def waveRenderChannel (spws : ℤ) (p : WaveParams) :
    WaveState → List ℚ → WaveState × List ℚ
  | st, [] => (st, [])
  | st, _ :: rest =>
    let fr := waveFrame spws p st
    let next := waveRenderChannel spws p fr.1 rest
    (next.1, fr.2 :: next.2)

/-- Waveform loop over the channels of `outputs[0]`. -/
def waveRenderChannels (spws : ℤ) (p : WaveParams) :
    WaveState → List (List ℚ) → WaveState × List (List ℚ)
  | st, [] => (st, [])
  | st, ch :: chs =>
    let c := waveRenderChannel spws p st ch
    let rest := waveRenderChannels spws p c.1 chs
    (rest.1, c.2 :: rest.2)

/-- Method `WaveformProcessor.process`: render only when
`parameters.trigger[0] > 0.5`; no `else` branch. -/
def waveProcess (sampleRate : ℚ) (p : WaveParams) (st : WaveState)
    (output : List (List ℚ)) : WaveState × List (List ℚ) :=
  if p.trigger > 1 / 2 then
    waveRenderChannels (samplesPerWaveformSample sampleRate p.frequency) p st output
  else (st, output)

/-- Waveform instance state at the start of frame `n` (enabled throughout). -/
def waveFrameSeq (spws : ℤ) (p : WaveParams) (n : ℕ) : WaveState :=
  iterN (fun st => (waveFrame spws p st).1) waveInitState n

/-- Whether the wavetable step boundary fires during frame `n`. -/
def waveStepFired (spws : ℤ) (p : WaveParams) (n : ℕ) : Bool :=
  ((waveFrameSeq spws p n).currentSample : ℤ) > spws

/-! ## PulseGenerator, modelled from the spec -/

/-- Modelled from the spec: the PulseGenerator source (`pwm-processor.js`) is
loaded by the app but missing from the repository, so §4.1 is embedded
verbatim: `period = floor(sampleRate / frequency)`. -/
def pulsePeriod (sampleRate frequency : ℚ) : ℤ := ⌊sampleRate / frequency⌋

/-- Modelled from the spec: `highSamples = floor(period * dutyCycle)` (§4.1). -/
def pulseHighSamples (sampleRate frequency dutyCycle : ℚ) : ℤ :=
  ⌊((pulsePeriod sampleRate frequency : ℤ) : ℚ) * dutyCycle⌋

/-- Modelled from the spec (§4.1), with the block constants `period` and
`highSamples` passed in: before emitting a frame, if `c > period` then
`c ← 0`; the emitted sample is `(c < highSamples ? -1 : +1) * gain`;
afterwards `c ← c + 1`. -/
def pulseFrame (period highSamples : ℤ) (gain : ℚ) (c : ℕ) : ℕ × ℚ :=
  let c1 := if (c : ℤ) > period then 0 else c
  (c1 + 1, (if (c1 : ℤ) < highSamples then -1 else 1) * gain)

/-- Modelled from the spec: the pulse counter at the start of frame `n`. -/
def pulseCounter (period highSamples : ℤ) (gain : ℚ) (n : ℕ) : ℕ :=
  iterN (fun c => (pulseFrame period highSamples gain c).1) 0 n

/-- Modelled from the spec: the sample the pulse generator emits in frame `n`
at `period = pulsePeriod sampleRate frequency` and
`highSamples = pulseHighSamples sampleRate frequency dutyCycle`. -/
def pulseEmitAt (period highSamples : ℤ) (gain : ℚ) (n : ℕ) : ℚ :=
  (pulseFrame period highSamples gain (pulseCounter period highSamples gain n)).2

/-- Modelled from the spec: whether the pulse period restart fires in frame `n`. -/
def pulseResetFired (period highSamples : ℤ) (gain : ℚ) (n : ℕ) : Bool :=
  ((pulseCounter period highSamples gain n : ℕ) : ℤ) > period

/-! ## The spec's wavetable packing contract (for the refinement claim C3) -/

/-- Spec §4.2: `wordIndex = floor(i/4)`. -/
def specWordIndex (i : ℕ) : ℕ := i / 4

/-- Spec §4.2: `byteOffset = floor((i mod 4)/2)`. -/
def specByteOffset (i : ℕ) : ℕ := i % 4 / 2

/-- Spec §4.2: `nibbleShift = (i mod 2 == 0) ? 4 : 0`. -/
def specNibbleShift (i : ℕ) : ℕ := if i % 2 = 0 then 4 else 0

/-- Spec §4.2: `byte = (word >> (byteOffset*8)) & 0xFF`. -/
def specByte (word i : ℕ) : ℕ := word >>> (specByteOffset i * 8) &&& 0xFF

/-- Spec §4.2: `nibble = (byte >> nibbleShift) & 0xF`. -/
def specNibble (word i : ℕ) : ℕ := specByte word i >>> specNibbleShift i &&& 0xF

/-- Spec §4.2: `amplitude = 1 - 2*(nibble/15)`. -/
def specAmplitude (nibble : ℕ) : ℚ := 1 - 2 * ((nibble : ℚ) / 15)

/-- Encoding of a boolean register as a natural number, entry 0 = bit 0
(analysis device for the part_001 orbit). -/
def encodeBits : List Bool → ℕ
  | [] => 0
  | b :: t => (if b then 1 else 0) + 2 * encodeBits t

/-! ## Generic lemmas: iteration and the shared frame counter -/

theorem iterN_add {α : Type} (f : α → α) (s : α) (a b : ℕ) :
    iterN f s (a + b) = iterN f (iterN f s a) b := by
  induction a generalizing s with
  | zero => simp [iterN]
  | succ m ih =>
    have h : m + 1 + b = (m + b) + 1 := by omega
    rw [show m + 1 + b = m + b + 1 from by omega]
    show iterN f (f s) (m + b) = iterN f (iterN f (f s) m) b
    exact ih (f s)

theorem iterN_succ {α : Type} (f : α → α) (s : α) (n : ℕ) :
    iterN f s (n + 1) = f (iterN f s n) := by
  induction n generalizing s with
  | zero => rfl
  | succ m ih => exact ih (f s)

/-- A state recurrence `iterN f s (N + p) = iterN f s N` propagates to every
later index: the orbit is periodic with period `p` from `N` on. -/
theorem iterN_periodic_from {α : Type} (f : α → α) (s : α) (N p : ℕ)
    (h : iterN f s (N + p) = iterN f s N) (n : ℕ) :
    iterN f s (N + n + p) = iterN f s (N + n) := by
  have h1 : N + n + p = (N + p) + n := by omega
  rw [h1, iterN_add, h, ← iterN_add]

theorem counterSeq_closed (t : ℕ) :
    ∀ n, counterSeq t n = if n = 0 then 0 else (n - 1) % (t + 1) + 1 := by
  intro n
  induction n with
  | zero => rfl
  | succ m ih =>
    show (if counterSeq t m > t then 0 else counterSeq t m) + 1 = _
    rcases Nat.eq_zero_or_pos m with hm | hm
    · subst hm; simp [counterSeq]
    · have hm' : m ≠ 0 := Nat.pos_iff_ne_zero.mp hm
      rw [ih]
      simp only [if_neg hm', Nat.succ_ne_zero, if_false, Nat.add_sub_cancel]
      have hxlt : (m - 1) % (t + 1) < t + 1 := Nat.mod_lt _ (Nat.succ_pos t)
      have hmod : m % (t + 1) = ((m - 1) % (t + 1) + 1) % (t + 1) := by
        conv_lhs => rw [show m = (m - 1) + 1 from by omega]
        rw [Nat.add_mod]
        rcases Nat.eq_zero_or_pos t with ht | ht
        · subst ht; simp [Nat.mod_one]
        · rw [Nat.mod_eq_of_lt (show (1 : ℕ) < t + 1 from by omega)]
      by_cases hxt : (m - 1) % (t + 1) = t
      · rw [if_pos (show (m - 1) % (t + 1) + 1 > t from by omega), hmod, hxt]
        simp [Nat.mod_self]
      · rw [if_neg (show ¬((m - 1) % (t + 1) + 1 > t) from by omega), hmod,
          Nat.mod_eq_of_lt (show (m - 1) % (t + 1) + 1 < t + 1 from by omega)]

/-- The boundary event (counter exceeding the threshold) fires exactly at the
positive multiples of `t + 1`: once every `t + 1` frames. -/
theorem counterSeq_gt_iff (t n : ℕ) :
    counterSeq t n > t ↔ n ≠ 0 ∧ (t + 1) ∣ n := by
  rw [counterSeq_closed]
  rcases Nat.eq_zero_or_pos n with hn | hn
  · subst hn; simp
  · have hn' : n ≠ 0 := Nat.pos_iff_ne_zero.mp hn
    rw [if_neg hn']
    have hxlt : (n - 1) % (t + 1) < t + 1 := Nat.mod_lt _ (Nat.succ_pos t)
    have hmod : n % (t + 1) = ((n - 1) % (t + 1) + 1) % (t + 1) := by
      conv_lhs => rw [show n = (n - 1) + 1 from by omega]
      rw [Nat.add_mod]
      rcases Nat.eq_zero_or_pos t with ht | ht
      · subst ht; simp [Nat.mod_one]
      · rw [Nat.mod_eq_of_lt (show (1 : ℕ) < t + 1 from by omega)]
    constructor
    · intro h
      refine ⟨hn', Nat.dvd_iff_mod_eq_zero.mpr ?_⟩
      have hxt : (n - 1) % (t + 1) = t := by omega
      rw [hmod, hxt]
      simp [Nat.mod_self]
    · rintro ⟨-, hdvd⟩
      have h0 : n % (t + 1) = 0 := Nat.dvd_iff_mod_eq_zero.mp hdvd
      rw [hmod] at h0
      by_cases hxt : (n - 1) % (t + 1) = t
      · omega
      · rw [Nat.mod_eq_of_lt (show (n - 1) % (t + 1) + 1 < t + 1 from by omega)] at h0
        omega

/-- Before its first reset the counter walks through every value `0 … t`. -/
theorem counterSeq_id (t j : ℕ) (h : j ≤ t) : counterSeq t j = j := by
  rw [counterSeq_closed]
  rcases Nat.eq_zero_or_pos j with hj | hj
  · subst hj; simp
  · rw [if_neg (Nat.pos_iff_ne_zero.mp hj),
      Nat.mod_eq_of_lt (show j - 1 < t + 1 from by omega)]
    omega

/-- The counter value actually used by the frame that fires the boundary
(`0` on boundary frames, the running value otherwise) is `n mod (t+1)`. -/
theorem counterSeq_eff (t n : ℕ) :
    (if counterSeq t n > t then 0 else counterSeq t n) = n % (t + 1) := by
  by_cases h : counterSeq t n > t
  · rw [if_pos h]
    rcases (counterSeq_gt_iff t n).mp h with ⟨-, hdvd⟩
    exact (Nat.dvd_iff_mod_eq_zero.mp hdvd).symm
  · rw [if_neg h, counterSeq_closed]
    rcases Nat.eq_zero_or_pos n with hn | hn
    · subst hn; simp
    · have hn' : n ≠ 0 := Nat.pos_iff_ne_zero.mp hn
      rw [if_neg hn']
      have hng : ¬((t + 1) ∣ n) := by
        intro hdvd
        exact h ((counterSeq_gt_iff t n).mpr ⟨hn', hdvd⟩)
      have h0 : n % (t + 1) ≠ 0 := fun hc => hng (Nat.dvd_iff_mod_eq_zero.mpr hc)
      have hmod : n % (t + 1) = ((n - 1) % (t + 1) + 1) % (t + 1) := by
        conv_lhs => rw [show n = (n - 1) + 1 from by omega]
        rw [Nat.add_mod]
        rcases Nat.eq_zero_or_pos t with ht | ht
        · subst ht; simp [Nat.mod_one]
        · rw [Nat.mod_eq_of_lt (show (1 : ℕ) < t + 1 from by omega)]
      have hxlt : (n - 1) % (t + 1) < t + 1 := Nat.mod_lt _ (Nat.succ_pos t)
      by_cases hxt : (n - 1) % (t + 1) = t
      · exfalso
        rw [hmod, hxt] at h0
        simp [Nat.mod_self] at h0
      · rw [hmod, Nat.mod_eq_of_lt (show (n - 1) % (t + 1) + 1 < t + 1 from by omega)]

/-- Generic counter-projection: a state machine whose counter component
follows the shared reset-then-increment rule with an integer threshold
`T ≥ 0` realizes `counterSeq T.toNat`. -/
theorem counter_proj {σ : Type} (f : σ → σ) (proj : σ → ℕ) (T : ℤ) (hT : 0 ≤ T)
    (hstep : ∀ s, proj (f s) = (if (proj s : ℤ) > T then 0 else proj s) + 1)
    (s0 : σ) (h0 : proj s0 = 0) :
    ∀ n, proj (iterN f s0 n) = counterSeq T.toNat n := by
  intro n
  induction n with
  | zero => simpa [iterN] using h0
  | succ m ih =>
    rw [iterN_succ, hstep, ih]
    show (if ((counterSeq T.toNat m : ℕ) : ℤ) > T then 0 else counterSeq T.toNat m) + 1 = _
    have hcast : (((counterSeq T.toNat m : ℕ) : ℤ) > T) ↔ counterSeq T.toNat m > T.toNat := by
      rw [show T = (T.toNat : ℤ) from (Int.toNat_of_nonneg hT).symm]
      exact_mod_cast Iff.rfl
    by_cases h : counterSeq T.toNat m > T.toNat
    · rw [if_pos (hcast.mpr h)]
      show (0 : ℕ) + 1 = counterSeq T.toNat (m + 1)
      show 0 + 1 = (if counterSeq T.toNat m > T.toNat then 0 else counterSeq T.toNat m) + 1
      rw [if_pos h]
    · rw [if_neg (fun hc => h (hcast.mp hc))]
      show counterSeq T.toNat m + 1 = (if counterSeq T.toNat m > T.toNat then 0 else counterSeq T.toNat m) + 1
      rw [if_neg h]

/-! ## Counter behavior of each processor -/

theorem noise0FrameSeq_counter (spt : ℤ) (hspt : 0 ≤ spt) (short : Bool)
    (g : ℚ) (n : ℕ) :
    (noise0FrameSeq spt short g n).currentSample = counterSeq spt.toNat n := by
  show (iterN (fun st => (noise0Frame spt short g st).1) noise0InitState n).currentSample = _
  refine counter_proj _ Noise0State.currentSample spt hspt ?_ _ rfl n
  intro s
  by_cases h : (s.currentSample : ℤ) > spt <;> simp [noise0Frame, h]

theorem noise1FrameSeq_counter (spt : ℤ) (hspt : 0 ≤ spt) (short : Bool)
    (g : ℚ) (n : ℕ) :
    (noise1FrameSeq spt short g n).currentSample = counterSeq spt.toNat n := by
  show (iterN (fun st => (noise1Frame spt short g st).1) noise1InitState n).currentSample = _
  refine counter_proj _ Noise1State.currentSample spt hspt ?_ _ rfl n
  intro s
  by_cases h : (s.currentSample : ℤ) > spt <;> simp [noise1Frame, h]

theorem waveFrameSeq_counter (spws : ℤ) (hspws : 0 ≤ spws) (p : WaveParams)
    (n : ℕ) :
    (waveFrameSeq spws p n).currentSample = counterSeq spws.toNat n := by
  show (iterN (fun st => (waveFrame spws p st).1) waveInitState n).currentSample = _
  refine counter_proj _ WaveState.currentSample spws hspws ?_ _ rfl n
  intro s
  by_cases h : (s.currentSample : ℤ) > spws <;> simp [waveFrame, h]

theorem pulseCounter_eq (period highSamples : ℤ) (hp : 0 ≤ period) (g : ℚ)
    (n : ℕ) :
    pulseCounter period highSamples g n = counterSeq period.toNat n := by
  show (iterN (fun c => (pulseFrame period highSamples g c).1) 0 n) = _
  refine counter_proj _ id period hp ?_ _ rfl n
  intro c
  by_cases h : ((c : ℕ) : ℤ) > period <;> simp [pulseFrame, h]

theorem noise0TickFired_iff (spt : ℤ) (hspt : 0 ≤ spt) (short : Bool) (g : ℚ)
    (n : ℕ) :
    noise0TickFired spt short g n = true ↔ n ≠ 0 ∧ (spt.toNat + 1) ∣ n := by
  unfold noise0TickFired
  rw [noise0FrameSeq_counter spt hspt short g n, decide_eq_true_iff]
  rw [show (((counterSeq spt.toNat n : ℕ) : ℤ) > spt) ↔
      counterSeq spt.toNat n > spt.toNat from by omega]
  exact counterSeq_gt_iff _ n

theorem waveStepFired_iff (spws : ℤ) (hspws : 0 ≤ spws) (p : WaveParams)
    (n : ℕ) :
    waveStepFired spws p n = true ↔ n ≠ 0 ∧ (spws.toNat + 1) ∣ n := by
  unfold waveStepFired
  rw [waveFrameSeq_counter spws hspws p n, decide_eq_true_iff]
  rw [show (((counterSeq spws.toNat n : ℕ) : ℤ) > spws) ↔
      counterSeq spws.toNat n > spws.toNat from by omega]
  exact counterSeq_gt_iff _ n

theorem pulseResetFired_iff (period highSamples : ℤ) (hp : 0 ≤ period) (g : ℚ)
    (n : ℕ) :
    pulseResetFired period highSamples g n = true ↔
      n ≠ 0 ∧ (period.toNat + 1) ∣ n := by
  unfold pulseResetFired
  rw [pulseCounter_eq period highSamples hp g n, decide_eq_true_iff]
  rw [show (((counterSeq period.toNat n : ℕ) : ℤ) > period) ↔
      counterSeq period.toNat n > period.toNat from by omega]
  exact counterSeq_gt_iff _ n

/-! ## Tick structure of the two shift-register implementations -/

theorem noise1DoTick_length (a : List Bool) (h : a.length = 15) (short : Bool) :
    (noise1DoTick a short).length = 15 := by
  cases short <;> simp [noise1DoTick, h]

theorem noise1DoTick_getD_14 (a : List Bool) (h : a.length = 15) (short : Bool) :
    (noise1DoTick a short).getD 14 false = (a.getD 0 false == a.getD 1 false) := by
  have ht : a.tail.length ≤ 14 := by simp [h]
  cases short <;>
    simp [noise1DoTick, List.getD_eq_getElem?_getD, List.getElem?_set,
      List.getElem?_append_right ht, h]

theorem noise1DoTick_getD_6 (a : List Bool) (h : a.length = 15) :
    (noise1DoTick a true).getD 6 false = (a.getD 0 false == a.getD 1 false) := by
  have hlen : 6 < (a.tail ++ [a.getD 0 false == a.getD 1 false]).length := by
    simp [h]
  show ((a.tail ++ [a.getD 0 false == a.getD 1 false]).set 6
      (a.getD 0 false == a.getD 1 false)).getD 6 false = _
  rw [List.getD_eq_getElem?_getD, List.getElem?_set]
  simp [hlen, h]

theorem noise1DoTick_getD_shift (a : List Bool) (h : a.length = 15)
    (short : Bool) (i : ℕ) (hi : i < 14) (hne : short = true → i ≠ 6) :
    (noise1DoTick a short).getD i false = a.getD (i + 1) false := by
  have ht : i < a.tail.length := by simp [h]; omega
  cases short
  · simp [noise1DoTick, List.getD_eq_getElem?_getD,
      List.getElem?_append_left ht, List.getElem?_tail]
  · have h6 : (6 : ℕ) ≠ i := fun hh => (hne rfl) hh.symm
    simp [noise1DoTick, List.getD_eq_getElem?_getD, List.getElem?_set, h6,
      List.getElem?_append_left ht, List.getElem?_tail]

/-- Dropping the JS `& ~mask` step: for 32-bit operands, `(x & ~m) | m` is
just `x | m`. -/
theorem and_not32_or_self (x m : ℕ) (hx : x < 2 ^ 32) :
    (x &&& (m ^^^ 0xFFFFFFFF)) ||| m = x ||| m := by
  apply Nat.eq_of_testBit_eq
  intro i
  rw [Nat.testBit_or, Nat.testBit_or, Nat.testBit_and, Nat.testBit_xor]
  rw [show (0xFFFFFFFF : ℕ) = 2 ^ 32 - 1 from rfl, Nat.testBit_two_pow_sub_one]
  by_cases hi : i < 32
  · simp only [hi, decide_True]
    cases x.testBit i <;> cases m.testBit i <;> rfl
  · have hxi : x.testBit i = false :=
      Nat.testBit_eq_false_of_lt (lt_of_lt_of_le hx (Nat.pow_le_pow_right (by omega) (by omega)))
    simp [hi, hxi]

/-- The packed-integer tick is a shift-right followed by an OR-write of the
feedback into bit 15 (and, in short mode, into bit 7). -/
theorem noise0DoTick_eq_or (l : ℕ) (hl : l < 2 ^ 32) (short : Bool) :
    noise0DoTick l short =
      (l >>> 1) |||
        (((if (l &&& 0x1 == 1) == ((l >>> 1) &&& 0x1 == 1) then 1 else 0) <<< 15) |||
          (if short then
            (if (l &&& 0x1 == 1) == ((l >>> 1) &&& 0x1 == 1) then 1 else 0) <<< 7
          else 0)) := by
  have hb : (!((l &&& 0x1 == 1) != ((l >>> 1) &&& 0x1 == 1))) =
      ((l &&& 0x1 == 1) == ((l >>> 1) &&& 0x1 == 1)) := by
    cases (l &&& 0x1 == 1 : Bool) <;> cases ((l >>> 1) &&& 0x1 == 1 : Bool) <;> rfl
  simp only [noise0DoTick]
  rw [hb]
  refine and_not32_or_self _ _ (lt_of_le_of_lt ?_ hl)
  rw [Nat.shiftRight_eq_div_pow]
  exact Nat.div_le_self _ _

/-- In the packed-integer variant the feedback lands in bit 15 (the register
is effectively 16 bits wide). -/
theorem noise0DoTick_testBit_15 (l : ℕ) (hl : l < 2 ^ 16) (short : Bool) :
    (noise0DoTick l short).testBit 15 =
      ((l &&& 0x1 == 1) == ((l >>> 1) &&& 0x1 == 1)) := by
  rw [noise0DoTick_eq_or l (lt_trans hl (by norm_num)) short]
  rw [Nat.testBit_or, Nat.testBit_or, Nat.testBit_shiftRight]
  have h16 : l.testBit 16 = false :=
    Nat.testBit_eq_false_of_lt (lt_of_lt_of_le hl (Nat.pow_le_pow_right (by omega) (by omega)))
  rw [show (1 + 15 : ℕ) = 16 from rfl, h16]
  cases hfb : ((l &&& 0x1 == 1) == ((l >>> 1) &&& 0x1 == 1) : Bool) <;>
    cases short <;> simp [hfb] <;> decide

/-- In short mode the packed-integer variant only ORs the feedback into the
tap bit: a `false` feedback leaves bit 7 holding the shifted-down old bit 8. -/
theorem noise0DoTick_testBit_7_short (l : ℕ) (hl : l < 2 ^ 16) :
    (noise0DoTick l true).testBit 7 =
      (((l &&& 0x1 == 1) == ((l >>> 1) &&& 0x1 == 1)) || l.testBit 8) := by
  rw [noise0DoTick_eq_or l (lt_trans hl (by norm_num)) true]
  rw [Nat.testBit_or, Nat.testBit_or, Nat.testBit_shiftRight]
  rw [show (1 + 7 : ℕ) = 8 from rfl]
  cases hfb : ((l &&& 0x1 == 1) == ((l >>> 1) &&& 0x1 == 1) : Bool) <;>
    cases h8 : l.testBit 8 <;> simp [hfb, h8] <;> decide

/-- The sample part_000 emits in frame `n` is decided by bit 0 of the register
as left by that frame (the state entering frame `n + 1`), scaled by the gain. -/
theorem noise0EmitAt_eq (spt : ℤ) (short : Bool) (g : ℚ) (n : ℕ) :
    noise0EmitAt spt short g n =
      (if (noise0FrameSeq spt short g (n + 1)).lfsr % 2 = 1 then -1 else 1) * g := by
  rw [noise0EmitAt, show noise0FrameSeq spt short g (n + 1) =
    (noise0Frame spt short g (noise0FrameSeq spt short g n)).1 from iterN_succ _ _ n]
  by_cases h : ((noise0FrameSeq spt short g n).currentSample : ℤ) > spt <;>
    simp [noise0Frame, h]

/-- The sample part_001 emits in frame `n` is decided by entry 0 of the
register as left by that frame, scaled by the gain. -/
theorem noise1EmitAt_eq (spt : ℤ) (short : Bool) (g : ℚ) (n : ℕ) :
    noise1EmitAt spt short g n =
      (if (noise1FrameSeq spt short g (n + 1)).lfsr.getD 0 false then -1 else 1) * g := by
  rw [noise1EmitAt, show noise1FrameSeq spt short g (n + 1) =
    (noise1Frame spt short g (noise1FrameSeq spt short g n)).1 from iterN_succ _ _ n]
  by_cases h : ((noise1FrameSeq spt short g n).currentSample : ℤ) > spt <;>
    simp [noise1Frame, h]

set_option maxRecDepth 8000

/-! ## Claim theorems -/

/-- C1 counterexample: driven with the same short-mode flag from the all-zero
register state, the packed-integer variant (part_000) and the boolean-array
variant (part_001) do not produce identical register-output-bit sequences:
after 15 ticks of long mode bit 0 differs (part_000 emits 0, part_001 emits 1),
and after 7 ticks of short mode it differs as well, so the claimed behavioral
equivalence fails. -/
theorem c1_counterexample_output_bits_diverge :
    ((noise0Out false 15 == 1) ≠ noise1Out false 15) ∧
    ((noise0Out true 7 == 1) ≠ noise1Out true 7) := by decide

/-- C1 amended: the two doTick implementations agree on the output bit only
for the first 14 ticks in long mode and the first 6 ticks in short mode; they
diverge at tick 15 (long) and tick 7 (short), so they are not behaviorally
equivalent. -/
theorem c1_amended_equivalence_only_before_divergence :
    (((List.range 15).all fun n => (noise0Out false n == 1) == noise1Out false n) = true) ∧
    ((noise0Out false 15 == 1) ≠ noise1Out false 15) ∧
    (((List.range 7).all fun n => (noise0Out true n == 1) == noise1Out true n) = true) ∧
    ((noise0Out true 7 == 1) ≠ noise1Out true 7) := by decide

/-- C4 counterexample: on the packed-integer variant (part_000) the claim's
"feedback is written into the vacated high bit of the 15-bit register (bit
index 14)" fails.  From the all-zero register bit 0 equals bit 1, so the
feedback bit is true, yet the tick yields 32768 = 2^15: bit 14 stays false and
the feedback lands in bit 15 instead. -/
theorem c4_counterexample_feedback_written_to_bit_15 :
    noise0DoTick 0 false = 32768 ∧
    ((0 &&& 0x1 == 1) == ((0 >>> 1) &&& 0x1 == 1)) = true ∧
    Nat.testBit (noise0DoTick 0 false) 14 = false ∧
    Nat.testBit (noise0DoTick 0 false) 15 = true := by decide

/-- C4 amended.  On every tick both variants compute the feedback bit as the
XNOR `bit0 == bit1` and each frame emits `(bit0 == 1 ? -1 : +1) * gain` from
the post-tick register.  The boolean-array variant (part_001) behaves exactly
as the claim states: the 15-entry register shifts one position toward the
output, the feedback is written into the vacated high entry (index 14), and in
short mode it is additionally written into tap entry 6.  The packed-integer
variant (part_000) instead ORs the feedback into bit 15 — an effective 16-bit
register — and in short mode only ORs it into tap bit 7, so a false feedback
is not written: bit 7 then keeps the shifted-down old bit 8. -/
theorem c4_amended_tick_structure :
    (∀ (a : List Bool), a.length = 15 → ∀ short : Bool,
      (noise1DoTick a short).length = 15 ∧
      (noise1DoTick a short).getD 14 false = (a.getD 0 false == a.getD 1 false) ∧
      (short = true →
        (noise1DoTick a short).getD 6 false = (a.getD 0 false == a.getD 1 false)) ∧
      (∀ i : ℕ, i < 14 → (short = true → i ≠ 6) →
        (noise1DoTick a short).getD i false = a.getD (i + 1) false)) ∧
    (∀ (l : ℕ), l < 2 ^ 16 → ∀ short : Bool,
      noise0DoTick l short =
        (l >>> 1) |||
          (((if (l &&& 0x1 == 1) == ((l >>> 1) &&& 0x1 == 1) then 1 else 0) <<< 15) |||
            (if short then
              (if (l &&& 0x1 == 1) == ((l >>> 1) &&& 0x1 == 1) then 1 else 0) <<< 7
            else 0)) ∧
      (noise0DoTick l short).testBit 15 =
        ((l &&& 0x1 == 1) == ((l >>> 1) &&& 0x1 == 1)) ∧
      (noise0DoTick l true).testBit 7 =
        (((l &&& 0x1 == 1) == ((l >>> 1) &&& 0x1 == 1)) || l.testBit 8)) ∧
    (∀ (spt : ℤ) (short : Bool) (g : ℚ) (n : ℕ),
      noise0EmitAt spt short g n =
        (if (noise0FrameSeq spt short g (n + 1)).lfsr % 2 = 1 then -1 else 1) * g) ∧
    (∀ (spt : ℤ) (short : Bool) (g : ℚ) (n : ℕ),
      noise1EmitAt spt short g n =
        (if (noise1FrameSeq spt short g (n + 1)).lfsr.getD 0 false then -1 else 1) * g) := by
  refine ⟨?_, ?_, noise0EmitAt_eq, noise1EmitAt_eq⟩
  · intro a ha short
    exact ⟨noise1DoTick_length a ha short, noise1DoTick_getD_14 a ha short,
      fun hs => hs ▸ noise1DoTick_getD_6 a ha,
      fun i hi hne => noise1DoTick_getD_shift a ha short i hi hne⟩
  · intro l hl short
    exact ⟨noise0DoTick_eq_or l (lt_trans hl (by norm_num)) short,
      noise0DoTick_testBit_15 l hl short, noise0DoTick_testBit_7_short l hl⟩

/-- C4 amended, witness: the part_001 facts evaluated on the all-zero register
in short mode (feedback bit true: entry 14 and tap entry 6 become true, entry
13 shifts down from entry 14), and the part_000 facts evaluated at register
258 = 0x102 in short mode (feedback false: bit 15 cleared, but tap bit 7 set
because old bit 8 was set), plus both emit rules at spt = 240, gain = 3,
frame 0. -/
theorem c4_amended_tick_structure_witness :
    (noise1DoTick noise1InitLfsr true).getD 14 false = true ∧
    (noise1DoTick noise1InitLfsr true).getD 6 false = true ∧
    (noise1DoTick noise1InitLfsr true).getD 13 false = false ∧
    (noise0DoTick 258 true).testBit 15 = false ∧
    (noise0DoTick 258 true).testBit 7 = true ∧
    noise0EmitAt 240 false 3 0 =
      (if (noise0FrameSeq 240 false 3 1).lfsr % 2 = 1 then -1 else 1) * 3 ∧
    noise1EmitAt 240 false 3 0 =
      (if (noise1FrameSeq 240 false 3 1).lfsr.getD 0 false then -1 else 1) * 3 := by
  have h := c4_amended_tick_structure
  refine ⟨?_, ?_, ?_, ?_, ?_, h.2.2.1 240 false 3 0, h.2.2.2 240 false 3 0⟩
  · rw [(h.1 noise1InitLfsr (by decide) true).2.1]; decide
  · rw [(h.1 noise1InitLfsr (by decide) true).2.2.1 rfl]; decide
  · rw [(h.1 noise1InitLfsr (by decide) true).2.2.2 13 (by decide) (by decide)]; decide
  · rw [(h.2.1 258 (by decide) true).2.1]; decide
  · rw [(h.2.1 258 (by decide) true).2.2]; decide

/-- C7: when the block's trigger is at most 0.5 the `process` call of every
generator writes nothing: the returned buffers are exactly the buffers the
host passed in, for the packed-integer noise variant, the boolean-array noise
variant and the waveform processor alike. -/
theorem c7_disabled_block_writes_nothing (sampleRate : ℚ) (p : NoiseParams)
    (q : WaveParams) (st0 : Noise0State) (st1 : Noise1State) (stw : WaveState)
    (output : List (List ℚ)) (hp : p.trigger ≤ 1 / 2) (hq : q.trigger ≤ 1 / 2) :
    (noise0Process sampleRate p st0 output).2 = output ∧
    (noise1Process sampleRate p st1 output).2 = output ∧
    (waveProcess sampleRate q stw output).2 = output := by
  have hp' : ¬(p.trigger > 1 / 2) := not_lt.mpr hp
  have hq' : ¬(q.trigger > 1 / 2) := not_lt.mpr hq
  unfold noise0Process noise1Process waveProcess
  rw [if_neg hp', if_neg hp', if_neg hq']
  exact ⟨rfl, rfl, rfl⟩

/-- C7 witness: a disabled block at trigger 0 leaves a concrete one-channel
buffer untouched for all three processors. -/
theorem c7_disabled_block_writes_nothing_witness :
    (noise0Process 48000 ⟨0, 1, 200, 1⟩ ⟨5, 3⟩ [[7]]).2 = [[7]] ∧
    (noise1Process 48000 ⟨0, 1, 200, 1⟩ ⟨noise1InitLfsr, 3⟩ [[7]]).2 = [[7]] ∧
    (waveProcess 48000 ⟨0, 1, 200, List.replicate 8 0⟩ waveInitState [[7]]).2 = [[7]] :=
  c7_disabled_block_writes_nothing 48000 ⟨0, 1, 200, 1⟩ ⟨0, 1, 200, List.replicate 8 0⟩
    ⟨5, 3⟩ ⟨noise1InitLfsr, 3⟩ waveInitState [[7]] (by norm_num) (by norm_num)

/-- C10: a disabled block (trigger at most 0.5) leaves the whole instance
state of the waveform processor (`data`, `currentSample`,
`currentWaveformSample`) and of the packed-integer noise variant (`lfsr`,
`currentSample`) exactly as it was, so a later enabled block resumes from the
frozen state. -/
theorem c10_disabled_block_freezes_state (sampleRate : ℚ) (p : NoiseParams)
    (q : WaveParams) (st0 : Noise0State) (stw : WaveState)
    (output : List (List ℚ)) (hp : p.trigger ≤ 1 / 2) (hq : q.trigger ≤ 1 / 2) :
    (noise0Process sampleRate p st0 output).1 = st0 ∧
    (waveProcess sampleRate q stw output).1 = stw := by
  have hp' : ¬(p.trigger > 1 / 2) := not_lt.mpr hp
  have hq' : ¬(q.trigger > 1 / 2) := not_lt.mpr hq
  unfold noise0Process waveProcess
  rw [if_neg hp', if_neg hq']
  exact ⟨rfl, rfl⟩

/-- C10 witness: a disabled block at trigger 0.3 keeps a concrete nonzero
noise register with its counter, and a concrete waveform state, unchanged. -/
theorem c10_disabled_block_freezes_state_witness :
    (noise0Process 48000 ⟨3 / 10, 1, 200, 1⟩ ⟨9, 2⟩ [[4]]).1 = (⟨9, 2⟩ : Noise0State) ∧
    (waveProcess 48000 ⟨3 / 10, 1, 200, List.replicate 8 5⟩
      ⟨List.replicate 32 0, 6, 17⟩ [[4]]).1 = (⟨List.replicate 32 0, 6, 17⟩ : WaveState) :=
  c10_disabled_block_freezes_state 48000 ⟨3 / 10, 1, 200, 1⟩
    ⟨3 / 10, 1, 200, List.replicate 8 5⟩ ⟨9, 2⟩ ⟨List.replicate 32 0, 6, 17⟩ [[4]]
    (by norm_num) (by norm_num)

/-- C8 counterexample to "exactly three divergence points": the two variants
also diverge in a fourth declared respect outside the documented three
(short-mode polarity, disable reset, default gain): the `width` parameter's
declared default is 1 in part_000 and 0 in part_001. -/
theorem c8_counterexample_width_defaults_also_diverge :
    ((noise0ParameterDescriptors.find? (fun d => d.name == "width")).map
      ParamDescriptor.defaultValue = some 1) ∧
    ((noise1ParameterDescriptors.find? (fun d => d.name == "width")).map
      ParamDescriptor.defaultValue = some 0) ∧
    (1 : ℚ) ≠ 0 := by
  refine ⟨rfl, rfl, by norm_num⟩

/-- C8 amended: the three documented divergence points do hold as stated —
part_000 selects short mode exactly when `width < 0.5`, keeps its whole state
(in particular the shift register) on a disabled block, and declares default
gain 1, while part_001 selects short mode exactly when `width > 0.5`, resets
its register to all-zero on every disabled block, and declares default gain 0;
the two short-mode selectors disagree at every width other than 0.5 — but
these are not the only divergences (the declared width defaults and the tick
behavior differ as well). -/
theorem c8_amended_documented_divergences :
    (∀ w : ℚ, noise0ShortFlag w = true ↔ w < 1 / 2) ∧
    (∀ w : ℚ, noise1ShortFlag w = true ↔ w > 1 / 2) ∧
    (∀ w : ℚ, w ≠ 1 / 2 → noise0ShortFlag w ≠ noise1ShortFlag w) ∧
    (∀ (r : ℚ) (p : NoiseParams) (st : Noise0State) (out : List (List ℚ)),
      p.trigger ≤ 1 / 2 → (noise0Process r p st out).1 = st) ∧
    (∀ (r : ℚ) (p : NoiseParams) (st : Noise1State) (out : List (List ℚ)),
      p.trigger ≤ 1 / 2 →
        (noise1Process r p st out).1.lfsr = List.replicate 15 false) ∧
    ((noise0ParameterDescriptors.find? (fun d => d.name == "gain")).map
      ParamDescriptor.defaultValue = some 1) ∧
    ((noise1ParameterDescriptors.find? (fun d => d.name == "gain")).map
      ParamDescriptor.defaultValue = some 0) := by
  refine ⟨fun w => by simp [noise0ShortFlag],
    fun w => by simp [noise1ShortFlag],
    fun w hw => ?_, fun r p st out hp => ?_, fun r p st out hp => ?_, rfl, rfl⟩
  · intro hc
    have h0 : (noise0ShortFlag w = true) ↔ (noise1ShortFlag w = true) := by rw [hc]
    simp only [noise0ShortFlag, noise1ShortFlag, decide_eq_true_eq] at h0
    rcases lt_trichotomy w (1 / 2) with h | h | h
    · exact absurd (h0.mp h) (asymm h)
    · exact hw h
    · exact absurd (h0.mpr h) (asymm h)
  · unfold noise0Process
    rw [if_neg (not_lt.mpr hp)]
  · unfold noise1Process
    rw [if_neg (not_lt.mpr hp)]

/-- C8 amended, witness: the divergences evaluated concretely — at width 0 the
selectors disagree, a disabled block (trigger 0) keeps part_000's register 9
with counter 2 but resets part_001's register to all-zero. -/
theorem c8_amended_documented_divergences_witness :
    noise0ShortFlag 0 ≠ noise1ShortFlag 0 ∧
    (noise0Process 48000 ⟨0, 1, 200, 0⟩ ⟨9, 2⟩ [[4]]).1 = (⟨9, 2⟩ : Noise0State) ∧
    (noise1Process 48000 ⟨0, 1, 200, 0⟩
      ⟨List.replicate 15 true, 2⟩ [[4]]).1.lfsr = List.replicate 15 false :=
  ⟨c8_amended_documented_divergences.2.2.1 0 (by norm_num),
   c8_amended_documented_divergences.2.2.2.1 48000 ⟨0, 1, 200, 0⟩ ⟨9, 2⟩ [[4]] (by norm_num),
   c8_amended_documented_divergences.2.2.2.2.1 48000 ⟨0, 1, 200, 0⟩
     ⟨List.replicate 15 true, 2⟩ [[4]] (by norm_num)⟩

/-! ## Periodicity of the noise registers (claim C5) -/

theorem noise1Seq_succ (short : Bool) (n : ℕ) :
    noise1Seq short (n + 1) = noise1DoTick (noise1Seq short n) short :=
  iterN_succ _ _ n

theorem noise1Seq_length (short : Bool) (n : ℕ) :
    (noise1Seq short n).length = 15 := by
  induction n with
  | zero => rfl
  | succ m ih => rw [noise1Seq_succ]; exact noise1DoTick_length _ ih short

theorem encodeBits_lt (a : List Bool) : encodeBits a < 2 ^ a.length := by
  induction a with
  | nil => simp [encodeBits]
  | cons b t ih =>
    simp only [encodeBits, List.length_cons, pow_succ]
    cases b <;> simp <;> omega

theorem encodeBits_inj (a : List Bool) :
    ∀ b : List Bool, a.length = b.length → encodeBits a = encodeBits b → a = b := by
  induction a with
  | nil =>
    intro b hlen _
    cases b with
    | nil => rfl
    | cons x t => simp at hlen
  | cons x t ih =>
    intro b hlen henc
    cases b with
    | nil => simp at hlen
    | cons y u =>
      simp only [encodeBits] at henc
      have hxy : x = y := by cases x <;> cases y <;> simp at henc ⊢ <;> omega
      subst hxy
      have ht : encodeBits t = encodeBits u := by cases x <;> simp at henc <;> omega
      have hl : t.length = u.length := by simpa using hlen
      rw [ih u hl ht]

/-- The all-ones register is the only register the long-mode part_001 tick
maps to all-ones. -/
theorem noise1DoTick_allOnes_preimage (a : List Bool) (h : a.length = 15)
    (ht : noise1DoTick a false = List.replicate 15 true) :
    a = List.replicate 15 true := by
  cases a with
  | nil => simp at h
  | cons b t =>
    have hstep : t ++ [(b :: t).getD 0 false == (b :: t).getD 1 false] =
        List.replicate 15 true := ht
    rw [List.replicate_succ' 14 true] at hstep
    have htlen : t.length = (List.replicate 14 true).length := by
      simp at h ⊢
      omega
    obtain ⟨ht14, hfb⟩ := List.append_inj hstep htlen
    have hfb' : ((b :: t).getD 0 false == (b :: t).getD 1 false) = true := by
      injection hfb
    have ht0 : t.getD 0 false = true := by
      rw [ht14]
      rfl
    have hb : b = true := by
      have : (b == t.getD 0 false) = true := hfb'
      rw [ht0] at this
      cases b
      · exact absurd this (by decide)
      · rfl
    rw [hb, ht14]
    rfl

/-- Starting from all-zero, the long-mode part_001 orbit never reaches the
all-ones fixed point. -/
theorem noise1Seq_ne_allOnes (n : ℕ) :
    noise1Seq false n ≠ List.replicate 15 true := by
  induction n with
  | zero => decide
  | succ m ih =>
    rw [noise1Seq_succ]
    intro hc
    exact ih (noise1DoTick_allOnes_preimage _ (noise1Seq_length false m) hc)

/-- Pigeonhole for the long-mode part_001 orbit: among the first `2 ^ 15`
register states two coincide, at indices at most `2 ^ 15 - 1` apart, because
the orbit lives in the `2 ^ 15 - 1` states distinct from all-ones. -/
theorem noise1Seq_long_recurrence :
    ∃ i j : ℕ, i < j ∧ j ≤ 2 ^ 15 - 1 ∧ noise1Seq false j = noise1Seq false i := by
  have hmaps : ∀ n ∈ Finset.range (2 ^ 15),
      encodeBits (noise1Seq false n) ∈ (Finset.range (2 ^ 15)).erase 32767 := by
    intro n _
    rw [Finset.mem_erase, Finset.mem_range]
    constructor
    · intro hc
      have hall : noise1Seq false n = List.replicate 15 true := by
        apply encodeBits_inj _ _ (by rw [noise1Seq_length]; rfl)
        rw [hc]
        decide
      exact noise1Seq_ne_allOnes n hall
    · have := encodeBits_lt (noise1Seq false n)
      rwa [noise1Seq_length] at this
  have hcard : ((Finset.range (2 ^ 15)).erase 32767).card < (Finset.range (2 ^ 15)).card := by
    rw [Finset.card_erase_of_mem (by simp), Finset.card_range]
    omega
  obtain ⟨x, hx, y, hy, hxy, hfeq⟩ :=
    Finset.exists_ne_map_eq_of_card_lt_of_maps_to hcard hmaps
  rw [Finset.mem_range] at hx hy
  have hstates : noise1Seq false x = noise1Seq false y :=
    encodeBits_inj _ _ (by rw [noise1Seq_length, noise1Seq_length]) hfeq
  rcases lt_or_gt_of_ne hxy with h | h
  · exact ⟨x, y, h, by omega, hstates.symm⟩
  · exact ⟨y, x, h, by omega, hstates⟩

/-- C5: from the all-zero register, each variant's per-tick output-bit
sequence is eventually periodic, with a period of at most `2 ^ 15 - 1` under
all-long-mode ticks and at most `2 ^ 7 - 1` under all-short-mode ticks.
Concretely: part_000 is purely 255-periodic in long mode and 24-periodic from
tick 14 in short mode; part_001 is 127-periodic in short mode, and in long
mode a period of at most `2 ^ 15 - 1` holds by pigeonhole since the orbit
avoids the all-ones fixed point. -/
theorem c5_output_eventually_periodic :
    (∃ N p : ℕ, 0 < p ∧ p ≤ 2 ^ 15 - 1 ∧
      ∀ n, noise0Out false (N + n + p) = noise0Out false (N + n)) ∧
    (∃ N p : ℕ, 0 < p ∧ p ≤ 2 ^ 7 - 1 ∧
      ∀ n, noise0Out true (N + n + p) = noise0Out true (N + n)) ∧
    (∃ N p : ℕ, 0 < p ∧ p ≤ 2 ^ 15 - 1 ∧
      ∀ n, noise1Out false (N + n + p) = noise1Out false (N + n)) ∧
    (∃ N p : ℕ, 0 < p ∧ p ≤ 2 ^ 7 - 1 ∧
      ∀ n, noise1Out true (N + n + p) = noise1Out true (N + n)) := by
  refine ⟨⟨0, 255, by norm_num, by norm_num, fun n => ?_⟩,
    ⟨14, 24, by norm_num, by norm_num, fun n => ?_⟩,
    ?_,
    ⟨1, 127, by norm_num, by norm_num, fun n => ?_⟩⟩
  · unfold noise0Out noise0Seq
    rw [iterN_periodic_from (fun l => noise0DoTick l false) 0 0 255 (by decide) n]
  · unfold noise0Out noise0Seq
    rw [iterN_periodic_from (fun l => noise0DoTick l true) 0 14 24 (by decide) n]
  · obtain ⟨i, j, hij, hj, hstates⟩ := noise1Seq_long_recurrence
    refine ⟨i, j - i, by omega, by omega, fun n => ?_⟩
    unfold noise1Out noise1Seq
    rw [iterN_periodic_from (fun a => noise1DoTick a false) noise1InitLfsr i (j - i)
      (by
        rw [show i + (j - i) = j from by omega]
        exact hstates) n]
  · unfold noise1Out noise1Seq
    rw [iterN_periodic_from (fun a => noise1DoTick a true) noise1InitLfsr 1 127
      (by decide) n]

/-! ## Pulse scenario and nibble decoding (claims C9, C3) -/

/-- C9: at sampleRate 48000 and frequency 200 the spec-modelled PulseGenerator
has `period = 240` and, at duty cycle 0.5, `highSamples = 120`; running the
counter rule, frame `n` outputs `-gain` exactly when `n mod 241 < 120` — the
first 120 frames of each cycle — and `+gain` on the remaining 121 frames, the
cycle spanning `period + 1 = 241` frames because the counter resets only
after exceeding 240. -/
theorem c9_pulse_48000_200_cycle :
    pulsePeriod 48000 200 = 240 ∧
    pulseHighSamples 48000 200 (1 / 2) = 120 ∧
    (∀ (g : ℚ) (n : ℕ),
      pulseEmitAt 240 120 g n = (if n % 241 < 120 then -1 else 1) * g) := by
  refine ⟨by norm_num [pulsePeriod], by norm_num [pulseHighSamples, pulsePeriod], ?_⟩
  intro g n
  unfold pulseEmitAt pulseFrame
  rw [pulseCounter_eq 240 120 (by norm_num) g n]
  have htn : ((240 : ℤ)).toNat = 240 := rfl
  rw [htn]
  have heff := counterSeq_eff 240 n
  rw [show (240 : ℕ) + 1 = 241 from rfl] at heff
  by_cases h : counterSeq 240 n > 240
  · rw [if_pos h] at heff
    rw [if_pos (show ((counterSeq 240 n : ℕ) : ℤ) > 240 from by exact_mod_cast h)]
    show (if ((0 : ℕ) : ℤ) < 120 then (-1 : ℚ) else 1) * g =
      (if n % 241 < 120 then (-1 : ℚ) else 1) * g
    rw [if_pos (show ((0 : ℕ) : ℤ) < 120 from by norm_num),
      if_pos (show n % 241 < 120 from by omega)]
  · rw [if_neg h] at heff
    rw [if_neg (show ¬(((counterSeq 240 n : ℕ) : ℤ) > 240) from by exact_mod_cast h)]
    rw [heff]
    show (if ((n % 241 : ℕ) : ℤ) < 120 then (-1 : ℚ) else 1) * g =
      (if n % 241 < 120 then (-1 : ℚ) else 1) * g
    by_cases h2 : n % 241 < 120
    · rw [if_pos (show ((n % 241 : ℕ) : ℤ) < 120 from by exact_mod_cast h2), if_pos h2]
    · rw [if_neg (show ¬(((n % 241 : ℕ) : ℤ) < 120) from by exact_mod_cast h2),
        if_neg h2]

/-- Every word fetched from the parameter list is below `2 ^ 32` when all
listed words are (the out-of-range default is 0). -/
theorem dataWords_getD_lt (ws : List ℕ) (h : ∀ w ∈ ws, w < 2 ^ 32) (k : ℕ) :
    ws.getD k 0 < 2 ^ 32 := by
  rw [List.getD_eq_getElem?_getD]
  cases hk : ws[k]? with
  | none => norm_num
  | some w => exact h w (List.getElem?_mem hk)

/-- C3: for every in-range packed word and logical index `i < 32`,
`getSample` decodes exactly the spec's byte-then-nibble formula
(`byte = (word >> (floor((i mod 4)/2)*8)) & 0xFF`,
`nibble = (byte >> ((i mod 2 == 0) ? 4 : 0)) & 0xF`) and maps the nibble to
`1 - 2*(nibble/15)`; in particular the word 0x12345678 decodes to the nibbles
7, 8, 5, 6 at indices 0–3 (high nibble of the low byte first), and nibble 0
maps to amplitude +1, nibble 15 to −1. -/
theorem c3_nibble_decoding :
    (∀ (q : WaveParams) (i : ℕ), i < 32 → (∀ w ∈ q.dataWords, w < 2 ^ 32) →
      getSample q i =
        specAmplitude (specNibble (q.dataWords.getD (specWordIndex i) 0) i)) ∧
    specNibble 0x12345678 0 = 7 ∧ specNibble 0x12345678 1 = 8 ∧
    specNibble 0x12345678 2 = 5 ∧ specNibble 0x12345678 3 = 6 ∧
    specAmplitude 0 = 1 ∧ specAmplitude 15 = -1 := by
  refine ⟨?_, by decide, by decide, by decide, by decide,
    by norm_num [specAmplitude], by norm_num [specAmplitude]⟩
  intro q i hi hw
  have hword := dataWords_getD_lt q.dataWords hw (i / 4)
  simp only [getSample, specAmplitude, specNibble, specByte, specWordIndex,
    specByteOffset, specNibbleShift, Nat.mod_eq_of_lt hword]

/-- C3 witness: the decoding law applied at index 2 of a parameter snapshot
whose first word is 0x12345678. -/
theorem c3_nibble_decoding_witness :
    getSample ⟨1, 1, 200, [0x12345678, 0, 0, 0, 0, 0, 0, 0]⟩ 2 =
      specAmplitude (specNibble 0x12345678 2) :=
  c3_nibble_decoding.1 ⟨1, 1, 200, [0x12345678, 0, 0, 0, 0, 0, 0, 0]⟩ 2
    (by norm_num) (by decide)

/-! ## The ControlChannel message and rendering (claim C6) -/

theorem waveFrame_setData (spws : ℤ) (p : WaveParams) (st : WaveState)
    (d : List ℚ) :
    waveFrame spws p { st with data := d } =
      ({ (waveFrame spws p st).1 with data := d }, (waveFrame spws p st).2) := by
  by_cases h : (st.currentSample : ℤ) > spws <;> simp [waveFrame, h]

theorem waveRenderChannel_setData (spws : ℤ) (p : WaveParams) (d : List ℚ) :
    ∀ (ch : List ℚ) (st : WaveState),
      waveRenderChannel spws p { st with data := d } ch =
        ({ (waveRenderChannel spws p st ch).1 with data := d },
          (waveRenderChannel spws p st ch).2) := by
  intro ch
  induction ch with
  | nil => intro st; rfl
  | cons x rest ih =>
    intro st
    simp only [waveRenderChannel, waveFrame_setData, ih]

theorem waveRenderChannels_setData (spws : ℤ) (p : WaveParams) (d : List ℚ) :
    ∀ (chs : List (List ℚ)) (st : WaveState),
      waveRenderChannels spws p { st with data := d } chs =
        ({ (waveRenderChannels spws p st chs).1 with data := d },
          (waveRenderChannels spws p st chs).2) := by
  intro chs
  induction chs with
  | nil => intro st; rfl
  | cons ch rest ih =>
    intro st
    simp only [waveRenderChannels, waveRenderChannel_setData, ih]

/-- C6 counterexample: with all data0–data7 parameters zero (whose nibbles all
decode to amplitude +1) and gain 1, the frame rendered right after a "replace
wavetable" message carrying 32 nibble values 15 is +1 — not the amplitude −1
that the delivered contents prescribe — because `getSample` reads the
`dataN` parameters and never the message-assigned `this.data`. -/
theorem c6_counterexample_message_not_rendered :
    (waveProcess 48000 ⟨1, 1, 200, List.replicate 8 0⟩
      (waveOnMessage waveInitState (List.replicate 32 15)) [[0]]).2 = [[1]] ∧
    (List.replicate 32 (15 : ℚ)).getD 0 0 = 15 ∧
    specAmplitude 15 * 1 = -1 ∧
    (1 : ℚ) ≠ -1 := by
  refine ⟨?_, rfl, by norm_num [specAmplitude], by norm_num⟩
  have h : ((305419896 &&& 255) >>> 4 &&& 15 : ℕ) = 7 := by decide
  norm_num [waveProcess, waveRenderChannels, waveRenderChannel, waveFrame,
    waveOnMessage, waveInitState, getSample, samplesPerWaveformSample,
    samplesPerWavelength]

/-- C6 amended: a "replace wavetable" message fully substitutes the
processor's stored `data` reference (leaving the counters alone), but the
rendered samples are computed from the `data0` … `data7` parameters: the
buffers written by `process` are identical with or without any preceding
message, so the replacement never influences rendering. -/
theorem c6_amended_message_replaces_data_but_not_output :
    (∀ (st : WaveState) (d : List ℚ),
      (waveOnMessage st d).data = d ∧
      (waveOnMessage st d).currentSample = st.currentSample ∧
      (waveOnMessage st d).currentWaveformSample = st.currentWaveformSample) ∧
    (∀ (sampleRate : ℚ) (p : WaveParams) (st : WaveState) (d : List ℚ)
      (output : List (List ℚ)),
      (waveProcess sampleRate p (waveOnMessage st d) output).2 =
        (waveProcess sampleRate p st output).2) := by
  refine ⟨fun st d => ⟨rfl, rfl, rfl⟩, fun r p st d out => ?_⟩
  unfold waveProcess
  by_cases h : p.trigger > 1 / 2
  · rw [if_pos h, if_pos h]
    show (waveRenderChannels (samplesPerWaveformSample r p.frequency) p
      { st with data := d } out).2 = _
    rw [waveRenderChannels_setData]
  · rw [if_neg h, if_neg h]

/-! ## Boundary cadence (claim C2) -/

/-- C2 counterexample: at sampleRate 48000 and frequency 200 the wavetable
step boundary fires at frames 8 and 16 with no boundary in between —
consecutive wavetable steps are 8 frames apart, not
`floor(sampleRate/frequency) + 1 = 241` frames apart as the claim states for
the wavetable step. -/
theorem c2_counterexample_wavetable_step_cadence :
    waveStepFired (samplesPerWaveformSample 48000 200)
      ⟨1, 1, 200, List.replicate 8 0⟩ 8 = true ∧
    waveStepFired (samplesPerWaveformSample 48000 200)
      ⟨1, 1, 200, List.replicate 8 0⟩ 16 = true ∧
    ((List.range 7).all fun k =>
      !(waveStepFired (samplesPerWaveformSample 48000 200)
        ⟨1, 1, 200, List.replicate 8 0⟩ (9 + k))) = true ∧
    (16 - 8 : ℕ) ≠ (samplesPerTick 48000 200).toNat + 1 := by
  have h7 : samplesPerWaveformSample 48000 200 = 7 := by
    norm_num [samplesPerWaveformSample, samplesPerWavelength]
  have h240 : samplesPerTick 48000 200 = 240 := by norm_num [samplesPerTick]
  simp only [h7, h240]
  refine ⟨by decide, by decide, by decide, by decide⟩

/-- C2 amended: every generator's boundary counter obeys the shared rule —
with threshold `t` the boundary fires exactly once every `t + 1` frames (at
the positive multiples of `t + 1`), and the counter takes every value
`0 … t` before its first reset.  For the noise tick and the spec-modelled
pulse period restart the threshold is `floor(sampleRate/frequency)`, so they
are separated by `floor(sampleRate/frequency) + 1` frames (not
`floor(sampleRate/frequency)`); the wavetable step's threshold, however, is
`floor(floor(sampleRate/frequency)/32)`, so steps are separated by
`floor(floor(sampleRate/frequency)/32) + 1` frames. -/
theorem c2_amended_boundary_every_threshold_plus_one (sampleRate frequency : ℚ)
    (hf : 1 ≤ frequency) (hr : 0 ≤ sampleRate) (short : Bool) (g : ℚ)
    (q : WaveParams) (hs : ℤ) (n : ℕ) :
    (noise0TickFired (samplesPerTick sampleRate frequency) short g n = true ↔
      (n ≠ 0 ∧ ((samplesPerTick sampleRate frequency).toNat + 1) ∣ n)) ∧
    (∀ j, j ≤ (samplesPerTick sampleRate frequency).toNat →
      (noise0FrameSeq (samplesPerTick sampleRate frequency) short g j).currentSample = j) ∧
    (waveStepFired (samplesPerWaveformSample sampleRate frequency) q n = true ↔
      (n ≠ 0 ∧ ((samplesPerWaveformSample sampleRate frequency).toNat + 1) ∣ n)) ∧
    (∀ j, j ≤ (samplesPerWaveformSample sampleRate frequency).toNat →
      (waveFrameSeq (samplesPerWaveformSample sampleRate frequency) q j).currentSample = j) ∧
    (pulseResetFired (pulsePeriod sampleRate frequency) hs g n = true ↔
      (n ≠ 0 ∧ ((pulsePeriod sampleRate frequency).toNat + 1) ∣ n)) := by
  have hfpos : (0 : ℚ) < frequency := lt_of_lt_of_le one_pos hf
  have hspt : 0 ≤ samplesPerTick sampleRate frequency :=
    Int.floor_nonneg.mpr (div_nonneg hr (le_of_lt hfpos))
  have hspws : 0 ≤ samplesPerWaveformSample sampleRate frequency := by
    unfold samplesPerWaveformSample
    refine Int.floor_nonneg.mpr (div_nonneg ?_ (by norm_num))
    exact_mod_cast hspt
  refine ⟨noise0TickFired_iff _ hspt short g n, fun j hj => ?_,
    waveStepFired_iff _ hspws q n, fun j hj => ?_,
    pulseResetFired_iff _ hs hspt g n⟩
  · rw [noise0FrameSeq_counter _ hspt short g j]
    exact counterSeq_id _ j hj
  · rw [waveFrameSeq_counter _ hspws q j]
    exact counterSeq_id _ j hj

/-- C2 amended, witness: at sampleRate 48000 and frequency 200 the noise tick
fires at frame 241 but not at frame 240, the counter at frame 240 is 240, and
the wavetable step fires at frame 8. -/
theorem c2_amended_boundary_witness :
    noise0TickFired (samplesPerTick 48000 200) false 1 241 = true ∧
    noise0TickFired (samplesPerTick 48000 200) false 1 240 = false ∧
    (noise0FrameSeq (samplesPerTick 48000 200) false 1 240).currentSample = 240 ∧
    waveStepFired (samplesPerWaveformSample 48000 200)
      ⟨1, 1, 200, List.replicate 8 0⟩ 8 = true := by
  have h240 : samplesPerTick 48000 200 = 240 := by norm_num [samplesPerTick]
  have h7 : samplesPerWaveformSample 48000 200 = 7 := by
    norm_num [samplesPerWaveformSample, samplesPerWavelength]
  have h := c2_amended_boundary_every_threshold_plus_one 48000 200 (by norm_num)
    (by norm_num) false 1 ⟨1, 1, 200, List.replicate 8 0⟩ 0
  refine ⟨(h 241).1.mpr ⟨by norm_num, ?_⟩, ?_, ?_, (h 8).2.2.1.mpr ⟨by norm_num, ?_⟩⟩
  · rw [h240]; decide
  · have hcontra := (h 240).1
    by_contra hc
    rw [Bool.not_eq_false] at hc
    obtain ⟨-, hdvd⟩ := hcontra.mp hc
    rw [h240] at hdvd
    revert hdvd
    decide
  · exact (h 240).2.1 240 (by rw [h240]; decide)
  · rw [h7]; decide
